import Mathlib

/-!
Shallow embedding of the wasm-vm host-side execution engine (Arwen), covering
the data model and operations needed to settle the claims about nested-call
frame effects, output-account balance conservation, the read-only execution
mode, upgrade permissions, VM-API hook return conventions, cross-shard
callback encoding, the writeLog negative-length guard, and the storage-lock
hooks.  Definitions follow the Go sources; operations whose implementation is
not available (context internals such as push/pop/merge of the Output and
Metering contexts, or the storage context) are modelled from the
specification and are marked as such in their doc comments.
-/

namespace WasmVM

/-- Raw byte strings; each entry is one byte value. -/
abbrev Bytes := List Nat

/-- VM return codes (vmcommon.ReturnCode). -/
inductive ReturnCode where
  | Ok
  | FunctionNotFound
  | FunctionWrongSignature
  | UserError
  | OutOfGas
  | AccountCollision
  | OutOfFunds
  | CallStackOverFlow
  | ContractInvalid
  | ExecutionFailed
  | UpgradeFailed
  deriving DecidableEq, Repr

/-- Numeric value of a return code, following the order of vmcommon. -/
def ReturnCode.toNat : ReturnCode → Nat
  | .Ok => 0
  | .FunctionNotFound => 1
  | .FunctionWrongSignature => 2
  | .UserError => 4
  | .OutOfGas => 5
  | .AccountCollision => 6
  | .OutOfFunds => 7
  | .CallStackOverFlow => 8
  | .ContractInvalid => 10
  | .ExecutionFailed => 11
  | .UpgradeFailed => 12

/-- Host errors from the arwen errors list that are relevant to the claims. -/
inductive VMErr where
  | errInvalidCallOnReadOnlyMode
  | errUpgradeNotAllowed
  | errNilContract
  | errExecutionFailed
  | errNegativeLength
  | errReturnCodeNotOk
  | errFailedTransfer
  | errNotEnoughGas
  | errSyncExecutionNotInSameShard
  | errBadBounds
  | errTransferInsufficientFunds
  | errTransferNegativeValue
  | errContractInvalid
  | errContractNotFound
  | errInvalidUpgradeArguments
  | errInvalidBuiltInFunctionCall
  | errAccountLookup
  | errSignalUserError
  | errDeploymentOverExistingAccount
  | errKeyNotProtected
  deriving DecidableEq, Repr

/-- Human-readable message of each error (arwen/errors.go texts, trimmed to
the fragments the tests assert on). -/
def errMessage : VMErr → String
  | .errInvalidCallOnReadOnlyMode => "operation not permitted in read only mode"
  | .errUpgradeNotAllowed => "upgrade not allowed"
  | .errNilContract => "nil contract"
  | .errExecutionFailed => "execution failed"
  | .errNegativeLength => "negative length"
  | .errReturnCodeNotOk => "return code is not ok"
  | .errFailedTransfer => "transfer of value failed"
  | .errNotEnoughGas => "not enough gas"
  | .errSyncExecutionNotInSameShard => "sync execution request is not in the same shard"
  | .errBadBounds => "mem load: bad bounds"
  | .errTransferInsufficientFunds => "insufficient funds"
  | .errTransferNegativeValue => "negative value"
  | .errContractInvalid => "invalid contract code"
  | .errContractNotFound => "contract not found"
  | .errInvalidUpgradeArguments => "invalid arguments to upgrade"
  | .errInvalidBuiltInFunctionCall => "invalid built in function call"
  | .errAccountLookup => "account lookup failed"
  | .errSignalUserError => "user error"
  | .errDeploymentOverExistingAccount => "cannot deploy over existing account"
  | .errKeyNotProtected => "key is not protected"

/-- Modelled from the spec (§4.4): `OutputContext.CreateVMOutputInCaseOfError`
maps an error to a return code (the output context implementation is not
under src/).  No error maps to `Ok`. -/
def returnCodeOfError : VMErr → ReturnCode
  | .errNotEnoughGas => .OutOfGas
  | .errSignalUserError => .UserError
  | .errContractInvalid => .ContractInvalid
  | .errUpgradeNotAllowed => .UpgradeFailed
  | _ => .ExecutionFailed

/-- No error is mapped to the `Ok` return code. -/
theorem returnCodeOfError_ne_Ok (e : VMErr) : returnCodeOfError e ≠ .Ok := by
  cases e <;> simp [returnCodeOfError]

/-- ASCII bytes of a string (all relevant strings are ASCII). -/
def strToBytes (s : String) : Bytes := s.data.map Char.toNat

/-- Encoding produced by `big.Int.Bytes()`: minimal big-endian digits, with
zero encoded as the empty byte string. -/
def natToBytesBE : Nat → Bytes
  | 0 => []
  | n + 1 => natToBytesBE ((n + 1) / 256) ++ [(n + 1) % 256]
decreasing_by exact Nat.div_lt_self (Nat.succ_pos n) (by omega)

/-- WASM linear memory, as seen through the runtime context. -/
abbrev Mem := List Nat

/-- `RuntimeContext.MemLoad`: bounded read from linear memory, returning the
"bad bounds" error outside the valid range. -/
def memLoad (m : Mem) (offset length : Int) : Except VMErr Bytes :=
  if offset < 0 ∨ length < 0 ∨ (m.length : Int) < offset + length then
    .error .errBadBounds
  else
    .ok ((m.drop offset.toNat).take length.toNat)

/-- `RuntimeContext.MemStore`: bounded write to linear memory. -/
def memStore (m : Mem) (offset : Int) (data : Bytes) : Except VMErr Mem :=
  if offset < 0 ∨ (m.length : Int) < offset + data.length then
    .error .errBadBounds
  else
    .ok (m.take offset.toNat ++ data ++ m.drop (offset.toNat + data.length))

/-- Gas-schedule costs referenced by the modelled hooks (GasSchedule maps). -/
structure GasSchedule where
  int64StorageStoreCost : Nat
  storageLoadCost : Nat
  logCost : Nat
  persistPerByte : Nat
  getBlockHashCost : Nat
  createAsyncCallCost : Nat
  setAsyncCallbackCost : Nat
  executeReadOnlyCost : Nat
  deriving DecidableEq, Repr

/-- Log entry recorded by `OutputContext.WriteLog`. -/
structure LogEntry where
  address : Bytes
  topics : List Bytes
  data : Bytes
  deriving DecidableEq, Repr

/-- State visible to a VM-API hook: linear memory, gas accounting, the
account storage of the contract under execution, the runtime read-only flag,
the failure bookkeeping of the runtime context and the accumulated logs. -/
structure EIState where
  mem : Mem
  gasUsed : Nat
  sto : List (Bytes × Bytes)
  readOnly : Bool
  scAddress : Bytes
  returnCode : ReturnCode
  runtimeErrors : List String
  logs : List LogEntry
  deriving DecidableEq, Repr

/-- `MeteringContext.UseGas` seen from a hook: an unconditional charge. -/
def chargeGas (gas : Nat) (s : EIState) : EIState :=
  { s with gasUsed := s.gasUsed + gas }

/-- Modelled from the spec (§4.2): `RuntimeContext.FailExecution` records the
error and raises the `ExecutionFailed` breakpoint, which the unwinding
dispatcher turns into an `ExecutionFailed` VMOutput (the runtime context
implementation is not under src/; the bad_test.go expectations pin this
return code). -/
def failExecution (e : VMErr) (s : EIState) : EIState :=
  { s with returnCode := .ExecutionFailed,
           runtimeErrors := s.runtimeErrors ++ [errMessage e] }

/-- `WithFault`: when the hook policy says API errors fail execution, a
recoverable hook failure is routed through `FailExecution`. -/
def withFault (e : VMErr) (failExec : Bool) (s : EIState) : EIState :=
  if failExec then failExecution e s else s

/-- Reserved protected-prefix bytes of host-only storage keys ("ELROND"). -/
def reservedKeyBytes : Bytes := strToBytes "ELROND"

/-- `arwen.TimeLockKeyPrefix` appended to the protected marker, as returned
by `StorageContext.GetVmProtectedPrefix(arwen.TimeLockKeyPrefix)`. -/
def timeLockKeyBytes : Bytes := reservedKeyBytes ++ strToBytes "timelock"

/-- `arwen.CustomStorageKey`: the key type bytes followed by the key. -/
def customStorageKey (keyType key : Bytes) : Bytes := keyType ++ key

/-- Storage write statuses (arwen.StorageStatus). -/
inductive StorageStatus where
  | StorageUnchanged
  | StorageModified
  | StorageAdded
  | StorageDeleted
  deriving DecidableEq, Repr

/-- Numeric value of a storage status returned through int32 hooks. -/
def StorageStatus.toInt : StorageStatus → Int
  | .StorageUnchanged => 0
  | .StorageModified => 1
  | .StorageAdded => 2
  | .StorageDeleted => 3

/-- Value stored under a key; unknown keys read as empty bytes (spec §4.5). -/
def lookupStorage (sto : List (Bytes × Bytes)) (key : Bytes) : Bytes :=
  match sto.find? (fun kv => decide (kv.1 = key)) with
  | some kv => kv.2
  | none => []

/-- Replace the binding of a key in the storage association list. -/
def insertStorage (sto : List (Bytes × Bytes)) (key value : Bytes) :
    List (Bytes × Bytes) :=
  (key, value) :: sto.filter (fun kv => !(decide (kv.1 = key)))

/-- Modelled from the spec (§4.5): `StorageContext.SetProtectedStorage` (the
storage context implementation is not under src/).  Callable only from
host-internal paths; the key must begin with the reserved protected-prefix
bytes, otherwise it is rejected; the returned status classifies the write. -/
def setProtectedStorage (sto : List (Bytes × Bytes)) (key value : Bytes) :
    Except VMErr (StorageStatus × List (Bytes × Bytes)) :=
  if reservedKeyBytes.isPrefixOf key then
    let oldValue := lookupStorage sto key
    let status : StorageStatus :=
      if oldValue = value then .StorageUnchanged
      else if value = [] then .StorageDeleted
      else if oldValue = [] then .StorageAdded
      else .StorageModified
    .ok (status, insertStorage sto key value)
  else
    .error .errKeyNotProtected

/-- `SetStorageLockWithTypedArgs` (elrondei.go): derives the protected
timelock key from the user key, encodes the timestamp as `big.Int` bytes and
writes it through `SetProtectedStorage`. -/
def setStorageLockWithTypedArgs (s : EIState) (key : Bytes)
    (lockTimestamp : Int) : Int × EIState :=
  let timeLockKey := customStorageKey timeLockKeyBytes key
  let tsBytes := natToBytesBE lockTimestamp.natAbs
  match setProtectedStorage s.sto timeLockKey tsBytes with
  | .error e => (-1, withFault e true s)
  | .ok (status, sto2) => (status.toInt, { s with sto := sto2 })

/-- `SetStorageLockWithHost` (elrondei.go): charges `Int64StorageStore`,
loads the key from memory and delegates to the typed-args variant. -/
def setStorageLockWithHost (gs : GasSchedule) (s : EIState)
    (keyOffset keyLength : Int) (lockTimestamp : Int) : Int × EIState :=
  let s1 := chargeGas gs.int64StorageStoreCost s
  match memLoad s1.mem keyOffset keyLength with
  | .error e => (-1, withFault e true s1)
  | .ok key => setStorageLockWithTypedArgs s1 key lockTimestamp

/-- `ClearStorageLock` (elrondei.go): delegates to `SetStorageLock` with
timestamp 0. -/
def clearStorageLock (gs : GasSchedule) (s : EIState)
    (keyOffset keyLength : Int) : Int × EIState :=
  setStorageLockWithHost gs s keyOffset keyLength 0

/-- Wrapping conversion of an arbitrary integer into Go int32 range. -/
def wrapInt32 (i : Int) : Int := (i + 2 ^ 31) % 2 ^ 32 - 2 ^ 31

/-- Go conversion `uint64(x)` of a signed value: reinterpretation mod 2^64. -/
def uint64Of (i : Int) : Nat := (i % 2 ^ 64).toNat

/-- Overflow-safe multiplication from the repository math package, which
saturates at the maximum uint64 value. -/
def satMulU64 (a b : Nat) : Nat := min (a * b) (2 ^ 64 - 1)

/-- Overflow-safe addition from the repository math package. -/
def satAddU64 (a b : Nat) : Nat := min (a + b) (2 ^ 64 - 1)

/-- Load `count` consecutive chunks of `size` bytes starting at `base`, as
the topic-loading loop of `WriteLog` does with `HashLen` chunks. -/
def memLoadChunks (m : Mem) (base : Int) (size : Int) :
    Nat → Except VMErr (List Bytes)
  | 0 => .ok []
  | n + 1 =>
    match memLoad m base size with
    | .error e => .error e
    | .ok first =>
      match memLoadChunks m (base + size) size n with
      | .error e => .error e
      | .ok rest => .ok (first :: rest)

/-- `WriteLog` VM hook (elrondei.go): charges log gas plus a per-byte
persistence cost, rejects negative lengths with `ErrNegativeLength`, loads
the data and the topics from memory and appends a log entry. -/
def writeLog (gs : GasSchedule) (s : EIState)
    (dataPointer dataLength topicPtr numTopics : Int) : EIState :=
  let gasToUse := satAddU64 gs.logCost
    (satMulU64 gs.persistPerByte (uint64Of (wrapInt32 (numTopics * 32 + dataLength))))
  let s1 := chargeGas gasToUse s
  if numTopics < 0 ∨ dataLength < 0 then
    withFault .errNegativeLength true s1
  else
    match memLoad s1.mem dataPointer dataLength with
    | .error e => withFault e true s1
    | .ok logData =>
      match memLoadChunks s1.mem topicPtr 32 numTopics.toNat with
      | .error e => withFault e true s1
      | .ok topics =>
        { s1 with logs := s1.logs ++ [⟨s1.scAddress, topics, logData⟩] }

/-- `GetBlockHash` VM hook (elrondei.go): charges gas, queries the block
hash and stores it at the result offset; returns 1 when the memory store
faults and 0 on success. -/
def getBlockHash (gs : GasSchedule) (blockHashOf : Nat → Bytes) (s : EIState)
    (nonce : Int) (resultOffset : Int) : Int × EIState :=
  let s1 := chargeGas gs.getBlockHashCost s
  let hash := blockHashOf (uint64Of nonce)
  match memStore s1.mem resultOffset hash with
  | .error e => (1, withFault e true s1)
  | .ok m2 => (0, { s1 with mem := m2 })

/-- `CreateAsyncCallWithTypedArgs` (elrondei.go): charges the async-call
costs and registers the call; returns 1 when registration faults and 0 on
success.  The async context registration itself is not under src/, so its
outcome is a parameter. -/
def createAsyncCallWithTypedArgs (gs : GasSchedule) (s : EIState)
    (successFunc errorFunc : Bytes) (registerOutcome : Option VMErr) :
    Int × EIState :=
  let s1 := chargeGas gs.createAsyncCallCost s
  let hasCallback := successFunc ≠ [] ∨ errorFunc ≠ []
  let s2 := if hasCallback then chargeGas gs.setAsyncCallbackCost s1 else s1
  match registerOutcome with
  | some e => (1, withFault e true s2)
  | none => (0, s2)

/-- `CreateAsyncCallWithHost` (elrondei.go): loads destination, value, data
and the two callback names from memory — returning 1 on any load fault — and
delegates to the typed-args variant. -/
def createAsyncCallWithHost (gs : GasSchedule) (s : EIState)
    (destOffset valueOffset dataOffset dataLength : Int)
    (successOffset successLength errorOffset errorLength : Int)
    (registerOutcome : Option VMErr) : Int × EIState :=
  match memLoad s.mem destOffset 32 with
  | .error e => (1, withFault e true s)
  | .ok _calledSCAddress =>
    match memLoad s.mem valueOffset 32 with
    | .error e => (1, withFault e true s)
    | .ok _value =>
      match memLoad s.mem dataOffset dataLength with
      | .error e => (1, withFault e true s)
      | .ok _data =>
        match memLoad s.mem successOffset successLength with
        | .error e => (1, withFault e true s)
        | .ok successFunc =>
          match memLoad s.mem errorOffset errorLength with
          | .error e => (1, withFault e true s)
          | .ok errorFunc =>
            createAsyncCallWithTypedArgs gs s successFunc errorFunc registerOutcome

/-- `StorageLoadWithHost` (elrondei.go): loads the key from memory, reads the
value from storage, stores it at the data offset and returns its length;
returns -1 on a memory fault. -/
def storageLoadWithHost (gs : GasSchedule) (s : EIState)
    (keyOffset keyLength dataOffset : Int) : Int × EIState :=
  match memLoad s.mem keyOffset keyLength with
  | .error e => (-1, withFault e true s)
  | .ok key =>
    let data := lookupStorage s.sto key
    let s1 := chargeGas gs.storageLoadCost s
    match memStore s1.mem dataOffset data with
    | .error e => (-1, withFault e true s1)
    | .ok m2 => ((data.length : Int), { s1 with mem := m2 })

/-- `ExecuteReadOnlyWithTypedArguments` (elrondei.go): charges gas, prepares
the indirect call input (failing when the destination is not in the caller's
shard), rejects builtin functions, then saves the read-only flag, sets it,
executes on the destination context and restores the saved flag before
reporting the result.  The inner execution is the full nested-call machinery
and is abstracted as a state transformer. -/
def executeReadOnlyWithTypedArguments (gs : GasSchedule)
    (inner : EIState → EIState × Option VMErr)
    (sameShard isBuiltinFunction : Bool) (s : EIState) : Int × EIState :=
  let s1 := chargeGas gs.executeReadOnlyCost s
  if !sameShard then
    (-1, withFault .errSyncExecutionNotInSameShard true s1)
  else if isBuiltinFunction then
    (1, withFault .errInvalidBuiltInFunctionCall true s1)
  else
    let wasReadOnly := s1.readOnly
    let s2 := { s1 with readOnly := true }
    let innerResult := inner s2
    let s4 := { innerResult.1 with readOnly := wasReadOnly }
    match innerResult.2 with
    | some e => (-1, withFault e true s4)
    | none => (0, s4)

/-- Call types of the VMInput (vm.CallType). -/
inductive CallType where
  | DirectCall
  | AsynchronousCall
  | AsynchronousCallBack
  | ExecOnDestByCaller
  | ESDTTransferAndExecute
  deriving DecidableEq, Repr

/-- Outgoing transfer recorded on a destination output account
(vmcommon.OutputTransfer, including the async-data prefix field). -/
structure OutputTransfer where
  value : Int
  gasLimit : Nat
  gasLocked : Nat
  asyncData : Bytes
  data : Bytes
  callType : CallType
  senderAddress : Bytes
  deriving DecidableEq, Repr

/-- State of the Output context under construction.  The per-account data of
the Go code (a map of OutputAccounts mutated in place) is represented as
flat ledgers: an account's balanceDelta is the sum of its postings, its
storage updates and transfers are the entries filed under its address, and
its staged code is its entry in `deployedCodes`.  This matches the merge
discipline of the spec (§4.4, §9): on merge, child accounts and transfers
are appended to the parent. -/
structure OutputFrame where
  deltaPostings : List (Bytes × Int)
  storageUpdatesList : List (Bytes × Bytes × Bytes)
  transfersList : List (Bytes × OutputTransfer)
  deployedCodes : List (Bytes × Bytes)
  returnData : List Bytes
  returnCode : ReturnCode
  returnMessage : String
  logs : List LogEntry
  deriving DecidableEq, Repr

/-- The fresh output state of a new frame. -/
def emptyOutputFrame : OutputFrame :=
  ⟨[], [], [], [], [], .Ok, "", []⟩

/-- Accumulated balanceDelta of one account in a frame. -/
def balanceDeltaOf (f : OutputFrame) (addr : Bytes) : Int :=
  ((f.deltaPostings.filter (fun p => decide (p.1 = addr))).map (fun p => p.2)).sum

/-- Sum of balanceDelta over all output accounts of a frame. -/
def sumBalanceDeltas (f : OutputFrame) : Int :=
  (f.deltaPostings.map (fun p => p.2)).sum

/-- Modelled from the spec (§4.4): merging a child output frame into its
parent appends the child's accounts (balance deltas, storage updates,
transfers, staged code) to the parent's, concatenates return data and logs,
and adopts the child's return status (output context internals are not
under src/). -/
def mergeOutputFrames (parent child : OutputFrame) : OutputFrame :=
  { deltaPostings := parent.deltaPostings ++ child.deltaPostings
    storageUpdatesList := parent.storageUpdatesList ++ child.storageUpdatesList
    transfersList := parent.transfersList ++ child.transfersList
    deployedCodes := parent.deployedCodes ++ child.deployedCodes
    returnData := parent.returnData ++ child.returnData
    returnCode := child.returnCode
    returnMessage := child.returnMessage
    logs := parent.logs ++ child.logs }

/-- Modelled from the spec (§4.4): `OutputContext.TransferValueOnly` debits
the sender's and credits the destination's balance delta, with no transfer
record attached; it rejects negative values, value-bearing transfers in
read-only mode, and senders that cannot afford the value. -/
def transferValueOnly (readOnly : Bool) (balanceOf : Bytes → Int)
    (dest sender : Bytes) (value : Int) (f : OutputFrame) :
    Except VMErr OutputFrame :=
  if value < 0 then .error .errTransferNegativeValue
  else if 0 < value ∧ readOnly then .error .errInvalidCallOnReadOnlyMode
  else if 0 < value ∧ balanceOf sender + balanceDeltaOf f sender < value then
    .error .errTransferInsufficientFunds
  else
    .ok { f with deltaPostings := f.deltaPostings ++ [(sender, -value), (dest, value)] }

/-- Modelled from the spec (§4.4): `OutputContext.Transfer` performs the
value movement of `TransferValueOnly` and records the outgoing transfer on
the destination account. -/
def outputTransfer (readOnly : Bool) (balanceOf : Bytes → Int)
    (dest sender : Bytes) (gasLimit gasLocked : Nat) (value : Int)
    (asyncData data : Bytes) (callType : CallType) (f : OutputFrame) :
    Except VMErr OutputFrame :=
  match transferValueOnly readOnly balanceOf dest sender value f with
  | .error e => .error e
  | .ok f2 =>
    .ok { f2 with transfersList := f2.transfersList ++
            [(dest, ⟨value, gasLimit, gasLocked, asyncData, data, callType, sender⟩)] }

/-- Modelled from its call in `doRunSmartContractCall` (src, part_002):
`OutputContext.AddTxValueToAccount(address, value)` receives only the
recipient address and the transferred value, and credits the value to that
account's balance delta (the output context implementation is not under
src/). -/
def addTxValueToAccount (addr : Bytes) (value : Int) (f : OutputFrame) :
    OutputFrame :=
  { f with deltaPostings := f.deltaPostings ++ [(addr, value)] }

/-- VMOutput assembled from an output frame (vmcommon.VMOutput), with the
same ledger representation of the output accounts. -/
structure VMOutput where
  returnCode : ReturnCode
  returnMessage : String
  gasRemaining : Nat
  returnData : List Bytes
  deltaPostings : List (Bytes × Int)
  storageUpdatesList : List (Bytes × Bytes × Bytes)
  transfersList : List (Bytes × OutputTransfer)
  deployedCodes : List (Bytes × Bytes)
  deriving DecidableEq, Repr

/-- `OutputContext.GetVMOutput`: the VMOutput of the current frame, with the
gas remaining read from the metering context. -/
def getVMOutput (f : OutputFrame) (gasRemaining : Nat) : VMOutput :=
  ⟨f.returnCode, f.returnMessage, gasRemaining, f.returnData, f.deltaPostings,
    f.storageUpdatesList, f.transfersList, f.deployedCodes⟩

/-- Modelled from the spec (§4.4): `CreateVMOutputInCaseOfError` keeps only
the return code mapped from the error and a readable message; everything
else is discarded. -/
def createVMOutputInCaseOfError (e : VMErr) : VMOutput :=
  ⟨returnCodeOfError e, errMessage e, 0, [], [], [], [], []⟩

/-- Sum of balanceDelta over all output accounts of a VMOutput. -/
def sumVMOutputDeltas (o : VMOutput) : Int :=
  (o.deltaPostings.map (fun p => p.2)).sum

/-- A context with its state stack, as every host context maintains one for
nested calls (spec §2, §9). -/
structure CtxStack (α : Type) where
  current : α
  stack : List α
  deriving DecidableEq, Repr

/-- Modelled from the spec (§9): `PushState` saves a copy of the active
state on the context's stack. -/
def pushState {α : Type} (c : CtxStack α) : CtxStack α :=
  ⟨c.current, c.current :: c.stack⟩

/-- Modelled from the spec (§9): `PopSetActiveState` discards the active
state and reinstates the saved one. -/
def popSetActiveState {α : Type} (c : CtxStack α) : CtxStack α :=
  match c.stack with
  | saved :: rest => ⟨saved, rest⟩
  | [] => c

/-- Modelled from the spec (§9): `PopMergeActiveState` merges the active
(child) state into the saved (parent) state and reinstates the result. -/
def popMergeActiveState {α : Type} (merge : α → α → α) (c : CtxStack α) :
    CtxStack α :=
  match c.stack with
  | saved :: rest => ⟨merge saved c.current, rest⟩
  | [] => c

/-- Modelled from the spec (§9): `PopDiscard` drops the saved state and
keeps the active one. -/
def popDiscard {α : Type} (c : CtxStack α) : CtxStack α :=
  match c.stack with
  | _ :: rest => ⟨c.current, rest⟩
  | [] => c

/-- One frame of the Metering context: gas charged so far by this contract
and gas still available to it. -/
structure MeteringFrame where
  gasUsed : Nat
  gasLeft : Nat
  deriving DecidableEq, Repr

/-- Modelled from the spec (§4.3): merging child gas accounting into the
parent sums the gas used; the parent's own remaining gas is unchanged by the
merge itself (`RestoreGas` returns the child's unspent gas separately). -/
def mergeMeteringFrames (parent child : MeteringFrame) : MeteringFrame :=
  { gasUsed := parent.gasUsed + child.gasUsed, gasLeft := parent.gasLeft }

/-- Modelled from the spec (§4.3): `RestoreGas(n)` returns unused gas to the
current frame. -/
def restoreGasFrame (n : Nat) (fr : MeteringFrame) : MeteringFrame :=
  { fr with gasLeft := fr.gasLeft + n }

/-- Host state consumed by `finishExecuteOnDestContext`: the Output and
Metering context stacks together with the facts the function reads from the
Runtime and Async contexts of the child frame (call type, completeness of
the async context, and the outcome of `async.Save()` when incomplete).
The ManagedTypes, Storage, Blockchain and Runtime contexts, which the
function pops unconditionally, are not tracked because the claims concern
the Output and Metering states. -/
structure DestFinishState where
  outputCtx : CtxStack OutputFrame
  meteringCtx : CtxStack MeteringFrame
  childIsAsyncCall : Bool
  asyncIsComplete : Bool
  asyncSaveOutcome : Option VMErr
  deriving DecidableEq, Repr

/-- `finishExecuteOnDestContext` (src, part_002 lines 398-451): build the
child VMOutput (an error output when the execution failed, or the output
frame's VMOutput otherwise, replaced by an error output when persisting an
incomplete async context fails); then pop-merge the Metering and Output
states when the return code is Ok and pop-set them otherwise; finally
restore the child's remaining gas to the caller unless an incomplete
asynchronous call is in flight. -/
def finishExecuteOnDestContext (executeErr : Option VMErr)
    (s : DestFinishState) : VMOutput × DestFinishState :=
  let vmo0 := match executeErr with
    | some e => createVMOutputInCaseOfError e
    | none => getVMOutput s.outputCtx.current s.meteringCtx.current.gasLeft
  let vmo := if s.asyncIsComplete then vmo0
    else match s.asyncSaveOutcome with
      | some saveErr => createVMOutputInCaseOfError saveErr
      | none => vmo0
  let outputCtx2 := if vmo.returnCode = .Ok
    then popMergeActiveState mergeOutputFrames s.outputCtx
    else popSetActiveState s.outputCtx
  let meteringCtx2 := if vmo.returnCode = .Ok
    then popMergeActiveState mergeMeteringFrames s.meteringCtx
    else popSetActiveState s.meteringCtx
  let meteringCtx3 := if !s.childIsAsyncCall ∨ s.asyncIsComplete
    then { meteringCtx2 with current := restoreGasFrame vmo.gasRemaining meteringCtx2.current }
    else meteringCtx2
  (vmo, { s with outputCtx := outputCtx2, meteringCtx := meteringCtx3 })

/-- Host state consumed by `finishExecuteOnSameContext`: the Output and
Metering context stacks (the ManagedTypes, Blockchain and Runtime contexts,
popped alongside them, are not tracked for the same reason as above). -/
structure SameFinishState where
  outputCtx : CtxStack OutputFrame
  meteringCtx : CtxStack MeteringFrame
  deriving DecidableEq, Repr

/-- `finishExecuteOnSameContext` (src, part_002 lines 504-529): when the
output return code is not Ok or an error was returned, pop-set the saved
states as if the execution did not happen; otherwise pop-merge the metering
state, pop-discard the output state (the child accumulated into the shared
frame) and restore the remaining gas to the caller. -/
def finishExecuteOnSameContext (executeErr : Option VMErr)
    (s : SameFinishState) : SameFinishState :=
  if s.outputCtx.current.returnCode ≠ .Ok ∨ executeErr.isSome then
    { outputCtx := popSetActiveState s.outputCtx
      meteringCtx := popSetActiveState s.meteringCtx }
  else
    let vmo := getVMOutput s.outputCtx.current s.meteringCtx.current.gasLeft
    let meteringCtx2 := popMergeActiveState mergeMeteringFrames s.meteringCtx
    { outputCtx := popDiscard s.outputCtx
      meteringCtx := { meteringCtx2 with
        current := restoreGasFrame vmo.gasRemaining meteringCtx2.current } }

/-- An ESDT token transfer (vmcommon.ESDTTransfer). -/
structure ESDTTransfer where
  tokenName : Bytes
  nonce : Nat
  value : Int
  deriving DecidableEq, Repr

/-- `ExecuteESDTTransfer` (src, part_002 lines 786-860) at the level of its
control flow: an empty transfer list fails, read-only mode fails with
`ErrInvalidCallOnReadOnlyMode`, and otherwise the synthesized builtin call
is processed by the blockchain hook (external; its outcome is a parameter);
a non-Ok hook output surfaces `ErrExecutionFailed`. -/
def executeESDTTransfer (readOnly : Bool) (transfers : List ESDTTransfer)
    (processBuiltinOutcome : Except VMErr VMOutput) : Except VMErr VMOutput :=
  if transfers = [] then .error .errFailedTransfer
  else if readOnly then .error .errInvalidCallOnReadOnlyMode
  else
    match processBuiltinOutcome with
    | .error e => .error e
    | .ok o => if o.returnCode ≠ .Ok then .error .errExecutionFailed else .ok o

/-- `callBuiltinFunction` (src, part_002 lines 862-892) at the level of its
read-only gate: read-only mode fails with `ErrInvalidCallOnReadOnlyMode`
before the blockchain hook is invoked (external; outcome a parameter). -/
def callBuiltinFunction (readOnly : Bool)
    (processBuiltinOutcome : Except VMErr VMOutput) : Except VMErr VMOutput :=
  if readOnly then .error .errInvalidCallOnReadOnlyMode
  else processBuiltinOutcome

/-- `CreateNewContract` (src, part_002 lines 553-623) up to its read-only
gate: the initial gas deduction may fail first; read-only mode then fails
with `ErrInvalidCallOnReadOnlyMode`; the remaining deployment pipeline
(address derivation, code install, init run) is abstracted as a parameter. -/
def createNewContract (readOnly : Bool) (deductOutcome : Option VMErr)
    (deploymentRest : Except VMErr Bytes) : Except VMErr Bytes :=
  match deductOutcome with
  | some e => .error e
  | none =>
    if readOnly then .error .errInvalidCallOnReadOnlyMode
    else deploymentRest

/-- Effect-level operations a guest may perform through the VM-API bridge
during one execution: append return data, write a log, write storage,
transfer value (optionally carrying data and gas), or run a nested
synchronous call on a destination context. -/
inductive GuestOp where
  | finishData (data : Bytes)
  | logOp (topics : List Bytes) (data : Bytes)
  | storageStoreOp (key value : Bytes)
  | transferExecuteOp (dest : Bytes) (value : Int) (gasLimit : Nat) (data : Bytes)
  | execOnDestOp (dest : Bytes) (value : Int) (ops : List GuestOp)

mutual

/-- One guest effect applied to the output frame of the running contract.
Storage writes in read-only mode are rejected with
`ErrInvalidCallOnReadOnlyMode` (spec §4.8; the storage context is not under
src/); transfers go through the output context; a nested call follows
`executeOnDestContextNoBuiltinFunction` (src, part_002 lines 344-396): a
fresh child frame, the entry value transfer, the child's own effects, and a
merge into the parent on success, while any failure propagates (the API
fault policy fails the caller's execution). -/
def runOp (balanceOf : Bytes → Int) (readOnly : Bool) (selfAddr : Bytes) :
    GuestOp → OutputFrame → Except VMErr OutputFrame
  | .finishData d, f => .ok { f with returnData := f.returnData ++ [d] }
  | .logOp topics d, f =>
    .ok { f with logs := f.logs ++ [⟨selfAddr, topics, d⟩] }
  | .storageStoreOp key value, f =>
    if readOnly then .error .errInvalidCallOnReadOnlyMode
    else .ok { f with storageUpdatesList := f.storageUpdatesList ++ [(selfAddr, key, value)] }
  | .transferExecuteOp dest value gasLimit d, f =>
    outputTransfer readOnly balanceOf dest selfAddr gasLimit 0 value [] d .DirectCall f
  | .execOnDestOp dest value ops, f =>
    match transferValueOnly readOnly balanceOf dest selfAddr value emptyOutputFrame with
    | .error e => .error e
    | .ok c1 =>
      match runOps balanceOf readOnly dest ops c1 with
      | .error e => .error e
      | .ok c2 => .ok (mergeOutputFrames f c2)

/-- Sequential execution of guest effects; the first failure aborts. -/
def runOps (balanceOf : Bytes → Int) (readOnly : Bool) (selfAddr : Bytes) :
    List GuestOp → OutputFrame → Except VMErr OutputFrame
  | [], f => .ok f
  | op :: rest, f =>
    match runOp balanceOf readOnly selfAddr op f with
    | .error e => .error e
    | .ok f2 => runOps balanceOf readOnly selfAddr rest f2

end

/-- The fields of a contract call input used by the claims. -/
structure CallInputLite where
  callerAddr : Bytes
  recipientAddr : Bytes
  callValue : Int
  gasProvided : Nat
  deriving DecidableEq, Repr

/-- `doRunSmartContractCall` (src, part_002 lines 187-262) projected onto the
Output context: a fresh output state, the call value credited to the
recipient through `AddTxValueToAccount`, the guest's effects, and the final
VMOutput — or an error VMOutput when any step fails (the gas checks and
instance start only add further error-output paths and are elided). -/
def doRunSmartContractCallOutput (balanceOf : Bytes → Int)
    (input : CallInputLite) (ops : List GuestOp) (gasRemaining : Nat) :
    VMOutput :=
  let f1 := addTxValueToAccount input.recipientAddr input.callValue emptyOutputFrame
  match runOps balanceOf false input.recipientAddr ops f1 with
  | .error e => createVMOutputInCaseOfError e
  | .ok f2 => getVMOutput f2 gasRemaining

/-- `ExecuteReadOnlyWithTypedArguments` (elrondei.go lines 2610-2654)
projected onto the Output context of the nested call: the call value is
fixed at zero, the read-only flag is set for the whole nested execution,
and the child VMOutput is assembled as in
`executeOnDestContextNoBuiltinFunction`. -/
def executeReadOnlyOutput (balanceOf : Bytes → Int) (selfAddr dest : Bytes)
    (ops : List GuestOp) (gasRemaining : Nat) : VMOutput :=
  match transferValueOnly true balanceOf dest selfAddr 0 emptyOutputFrame with
  | .error e => createVMOutputInCaseOfError e
  | .ok c1 =>
    match runOps balanceOf true dest ops c1 with
    | .error e => createVMOutputInCaseOfError e
    | .ok c2 => getVMOutput c2 gasRemaining

/-- User account data consulted by the upgrade permission check. -/
structure UserAccount where
  ownerAddress : Bytes
  codeMetadataBytes : Bytes
  deriving DecidableEq, Repr

/-- Decoded code metadata flags (spec §6). -/
structure CodeMetadata where
  upgradeable : Bool
  readable : Bool
  payable : Bool
  payableBySC : Bool
  deriving DecidableEq, Repr

/-- Modelled from the spec (§6) and the vmcommon dependency:
`CodeMetadataFromBytes` decodes the two metadata bytes (byte 0 carries
upgradeable and readable, byte 1 carries payable and payableBySC); any
other length decodes to all-false flags. -/
def codeMetadataFromBytes (b : Bytes) : CodeMetadata :=
  match b with
  | [b0, b1] => ⟨b0.testBit 0, b0.testBit 2, b1.testBit 1, b1.testBit 2⟩
  | _ => ⟨false, false, false, false⟩

/-- `checkUpgradePermission` (src, part_002 lines 625-645): fetch the target
account; a lookup failure or nil account is its own error; otherwise the
upgrade is permitted exactly when the code metadata marks the contract
upgradeable and the caller is its owner, and rejected with
`ErrUpgradeNotAllowed` otherwise. -/
def checkUpgradePermission
    (getUserAccount : Bytes → Except VMErr (Option UserAccount))
    (callerAddr recipientAddr : Bytes) : Option VMErr :=
  match getUserAccount recipientAddr with
  | .error e => some e
  | .ok none => some .errNilContract
  | .ok (some contract) =>
    let codeMetadata := codeMetadataFromBytes contract.codeMetadataBytes
    if codeMetadata.upgradeable ∧ callerAddr = contract.ownerAddress then none
    else some .errUpgradeNotAllowed

/-- Modelled from its use in the upgrade paths (the runtime context is not
under src/): `ExtractCodeUpgradeFromArgs` reads the new code and the new
code metadata from the first two call arguments. -/
def extractCodeUpgradeFromArgs (args : List Bytes) : Option (Bytes × Bytes) :=
  match args with
  | code :: codeMetadata :: _ => some (code, codeMetadata)
  | _ => none

/-- Code deployment request (arwen.CodeDeployInput). -/
structure CodeDeployLite where
  contractCode : Bytes
  contractCodeMetadata : Bytes
  contractAddress : Bytes
  codeDeployerAddress : Bytes
  deriving DecidableEq, Repr

/-- `OutputContext.DeployCode`: stage the new code on the target account. -/
def deployCode (input : CodeDeployLite) (f : OutputFrame) : OutputFrame :=
  { f with deployedCodes := f.deployedCodes ++ [(input.contractAddress, input.contractCode)] }

/-- `performCodeDeployment` (src, part_002 lines 77-108): deduct the
deployment gas, start the instance on the new code, run `init`, then stage
the code and return the VMOutput.  The metering, executor and init-run
outcomes are parameters (their implementations are outside src/). -/
def performCodeDeployment (deductOutcome startOutcome initOutcome : Option VMErr)
    (input : CodeDeployLite) (f : OutputFrame) (gasRemaining : Nat) :
    Except VMErr VMOutput :=
  match deductOutcome with
  | some e => .error e
  | none =>
    match startOutcome with
    | some _ => .error .errContractInvalid
    | none =>
      match initOutcome with
      | some e => .error e
      | none => .ok (getVMOutput (deployCode input f) gasRemaining)

/-- `doRunSmartContractUpgrade` (src, part_002 lines 110-162): the upgrade
permission is checked first and a rejection produces an error VMOutput with
no code deployment; otherwise the new code is extracted from the arguments
and deployed through `performCodeDeployment`. -/
def doRunSmartContractUpgrade
    (getUserAccount : Bytes → Except VMErr (Option UserAccount))
    (callerAddr recipientAddr : Bytes) (callValue : Int) (args : List Bytes)
    (deductOutcome startOutcome initOutcome : Option VMErr)
    (gasRemaining : Nat) : VMOutput :=
  match checkUpgradePermission getUserAccount callerAddr recipientAddr with
  | some e => createVMOutputInCaseOfError e
  | none =>
    let f1 := addTxValueToAccount recipientAddr callValue emptyOutputFrame
    match extractCodeUpgradeFromArgs args with
    | none => createVMOutputInCaseOfError .errInvalidUpgradeArguments
    | some codeAndMetadata =>
      match performCodeDeployment deductOutcome startOutcome initOutcome
          ⟨codeAndMetadata.1, codeAndMetadata.2, recipientAddr, callerAddr⟩ f1 gasRemaining with
      | .error e => createVMOutputInCaseOfError e
      | .ok o => o

/-- `executeUpgrade` (src, part_002 lines 647-694): the indirect upgrade
checks the permission first and propagates the rejection before anything is
deployed; afterwards it mirrors the deployment pipeline on the caller's
active output frame and requires an Ok return code. -/
def executeUpgrade
    (getUserAccount : Bytes → Except VMErr (Option UserAccount))
    (callerAddr recipientAddr : Bytes) (args : List Bytes)
    (deductOutcome startOutcome initOutcome : Option VMErr)
    (f : OutputFrame) : Except VMErr OutputFrame :=
  match checkUpgradePermission getUserAccount callerAddr recipientAddr with
  | some e => .error e
  | none =>
    match extractCodeUpgradeFromArgs args with
    | none => .error .errInvalidUpgradeArguments
    | some codeAndMetadata =>
      match deductOutcome with
      | some e => .error e
      | none =>
        match startOutcome with
        | some _ => .error .errContractInvalid
        | none =>
          match initOutcome with
          | some e => .error e
          | none =>
            let f2 := deployCode ⟨codeAndMetadata.1, codeAndMetadata.2, recipientAddr, callerAddr⟩ f
            if f2.returnCode ≠ .Ok then .error .errReturnCodeNotOk else .ok f2

/-- Transaction-data builder state (the txDataBuilder dependency): a call
function plus an ordered list of argument fields. -/
structure TxDataBuilder where
  callFunction : Bytes
  elements : List Bytes
  deriving DecidableEq, Repr

/-- A fresh builder. -/
def TxDataBuilder.newBuilder : TxDataBuilder := ⟨[], []⟩

/-- Set the call function of the builder. -/
def TxDataBuilder.setFunc (b : TxDataBuilder) (f : Bytes) : TxDataBuilder :=
  { b with callFunction := f }

/-- Append one raw byte-string field. -/
def TxDataBuilder.addBytes (b : TxDataBuilder) (e : Bytes) : TxDataBuilder :=
  { b with elements := b.elements ++ [e] }

/-- Append one string field. -/
def TxDataBuilder.addStr (b : TxDataBuilder) (s : String) : TxDataBuilder :=
  b.addBytes (strToBytes s)

/-- ASCII byte of one lowercase hexadecimal digit. -/
def hexDigitByte (n : Nat) : Nat := if n < 10 then 48 + n else 87 + n

/-- Lowercase hexadecimal encoding of a byte string. -/
def hexEncode (bs : Bytes) : Bytes :=
  bs.flatMap (fun v => [hexDigitByte (v / 16), hexDigitByte (v % 16)])

/-- Serialization of the builder (the txDataBuilder dependency): the call
function followed by each field hex-encoded behind an "@" separator — the
canonical field-delimited encoding the spec calls the builder's wire form. -/
def TxDataBuilder.toBytes (b : TxDataBuilder) : Bytes :=
  b.callFunction ++ b.elements.flatMap (fun e => 64 :: hexEncode e)

/-- The part of the async context state read by the cross-shard callback
path (contexts/asyncRemote.go). -/
structure AsyncCtxLite where
  address : Bytes
  callerAddr : Bytes
  callID : Bytes
  callerCallID : Bytes
  gasAccumulated : Nat
  totalCallsCounter : Nat
  deriving DecidableEq, Repr

/-- Modelled from the spec (§4.7.1, call IDs are unique per call; the async
context implementation is not under src/): `generateNewCallID` increments
the total-calls counter and derives a fresh identifier from the owner's
call ID and the counter. -/
def generateNewCallID (ctx : AsyncCtxLite) : Bytes × AsyncCtxLite :=
  let counter := ctx.totalCallsCounter + 1
  (ctx.callID ++ natToBytesBE counter, { ctx with totalCallsCounter := counter })

/-- `contexts.ReturnCodeToBytes` (not under src/): the big.Int encoding of
the numeric return code. -/
def returnCodeToBytes (rc : ReturnCode) : Bytes := natToBytesBE rc.toNat

/-- Placeholder callback name kept in the transfer data so decoding does not
break (contexts/asyncRemote.go). -/
def callbackNamePlaceholder : String := "<callback>"

/-- `createDataForCrossShardCallback` (contexts/asyncRemote.go lines
100-123): the async data carries the fresh call ID, the current call ID,
the caller's call ID and the accumulated gas; the transfer data carries the
placeholder function, the return code, and then the return data on Ok or
the return message otherwise. -/
def createDataForCrossShardCallback (ctx : AsyncCtxLite)
    (returnCode : ReturnCode) (returnData : List Bytes)
    (returnMessage : String) : Bytes × Bytes × AsyncCtxLite :=
  let generated := generateNewCallID ctx
  let asyncData :=
    ((((TxDataBuilder.newBuilder.addBytes generated.1).addBytes
        ctx.callID).addBytes ctx.callerCallID).addBytes
      (natToBytesBE ctx.gasAccumulated))
  let base :=
    (TxDataBuilder.newBuilder.setFunc (strToBytes callbackNamePlaceholder)).addBytes
      (returnCodeToBytes returnCode)
  let transferData :=
    if returnCode = .Ok then returnData.foldl TxDataBuilder.addBytes base
    else base.addStr returnMessage
  (asyncData.toBytes, transferData.toBytes, generated.2)

/-- `SendCrossShardCallback` together with the package-level
`sendCrossShardCallback` (contexts/asyncRemote.go lines 14-24 and 68-98):
build the async data and transfer data, consume all remaining gas, and emit
a transfer of zero value from the async context's address back to its
caller, carrying the remaining gas and tagged `AsynchronousCallBack`. -/
def sendCrossShardCallback (readOnly : Bool) (balanceOf : Bytes → Int)
    (ctx : AsyncCtxLite) (returnCode : ReturnCode) (returnData : List Bytes)
    (returnMessage : String) (gasLeft : Nat) (f : OutputFrame) :
    Except VMErr (OutputFrame × AsyncCtxLite) :=
  let built := createDataForCrossShardCallback ctx returnCode returnData returnMessage
  match outputTransfer readOnly balanceOf ctx.callerAddr ctx.address gasLeft 0 0
      built.1 built.2.1 .AsynchronousCallBack f with
  | .error e => .error e
  | .ok f2 => .ok (f2, built.2.2)

/-! Theorems settling the claims, one per claim, with shared helper lemmas. -/

/-- Helper: storage lookup after an insert of the same key. -/
theorem lookupStorage_insert (sto : List (Bytes × Bytes)) (key value : Bytes) :
    lookupStorage (insertStorage sto key value) key = value := by
  simp [lookupStorage, insertStorage, List.find?]

/-- Helper: the reserved protected-prefix bytes open every timelock key. -/
theorem reserved_isPrefixOf_timeLockKey (key : Bytes) :
    reservedKeyBytes.isPrefixOf (customStorageKey timeLockKeyBytes key) = true := by
  rw [List.isPrefixOf_iff_prefix]
  unfold customStorageKey timeLockKeyBytes
  rw [List.append_assoc]
  exact List.prefix_append reservedKeyBytes _

/-- C10: `clearStorageLock(key)` is exactly `setStorageLock(key, 0)`: it is
the same hook invocation with timestamp 0, so it charges the same gas and
returns the same storage status; and writing timestamp 0 stores the byte
representation of zero — the empty byte string — under the protected
timelock key derived from the key. -/
theorem clearStorageLock_is_setStorageLock_zero (gs : GasSchedule)
    (s : EIState) (keyOffset keyLength : Int) :
    clearStorageLock gs s keyOffset keyLength
      = setStorageLockWithHost gs s keyOffset keyLength 0 ∧
    natToBytesBE (Int.natAbs 0) = [] ∧
    ∀ (s2 : EIState) (key : Bytes),
      lookupStorage ((setStorageLockWithTypedArgs s2 key 0).2).sto
          (customStorageKey timeLockKeyBytes key)
        = [] := by
  refine ⟨rfl, by simp [natToBytesBE], fun s2 key => ?_⟩
  unfold setStorageLockWithTypedArgs setProtectedStorage
  simp only [reserved_isPrefixOf_timeLockKey, if_true]
  simp [lookupStorage_insert, natToBytesBE]

/-- C9: `ExecuteReadOnlyWithTypedArguments` saves the runtime read-only flag
before the inner execution and restores the saved value afterwards on every
path, so the flag after the call equals the flag before it; in particular a
nested `executeReadOnly` inside an already read-only execution leaves the
caller read-only. -/
theorem executeReadOnly_restores_flag (gs : GasSchedule)
    (inner : EIState → EIState × Option VMErr)
    (sameShard isBuiltinFunction : Bool) (s : EIState) :
    ((executeReadOnlyWithTypedArguments gs inner sameShard isBuiltinFunction s).2).readOnly
        = s.readOnly ∧
    (s.readOnly = true →
      ((executeReadOnlyWithTypedArguments gs inner sameShard isBuiltinFunction s).2).readOnly
        = true) := by
  have hmain :
      ((executeReadOnlyWithTypedArguments gs inner sameShard isBuiltinFunction s).2).readOnly
        = s.readOnly := by
    unfold executeReadOnlyWithTypedArguments
    split
    · simp [withFault, failExecution, chargeGas]
    · split
      · simp [withFault, failExecution, chargeGas]
      · rcases h2 : (inner { chargeGas gs.executeReadOnlyCost s with readOnly := true }).2 with _ | e <;>
          simp [h2, withFault, failExecution] <;> simp [chargeGas]
  exact ⟨hmain, fun h => hmain.trans h⟩

/-- Witness for C9 at a concrete read-only state and inner execution. -/
theorem executeReadOnly_restores_flag_witness :
    ((executeReadOnlyWithTypedArguments ⟨0, 0, 0, 0, 0, 0, 0, 0⟩
        (fun s => ({ s with readOnly := false }, none)) true false
        ⟨[], 0, [], true, [], .Ok, [], []⟩).2).readOnly = true :=
  (executeReadOnly_restores_flag ⟨0, 0, 0, 0, 0, 0, 0, 0⟩
    (fun s => ({ s with readOnly := false }, none)) true false
    ⟨[], 0, [], true, [], .Ok, [], []⟩).2 rfl

/-- C8: a `writeLog` call with a negative data length or a negative number
of topics fails the execution with return code `ExecutionFailed` and the
error message "negative length", and records no log entry. -/
theorem writeLog_negative_length (gs : GasSchedule) (s : EIState)
    (dataPointer dataLength topicPtr numTopics : Int)
    (h : numTopics < 0 ∨ dataLength < 0) :
    (writeLog gs s dataPointer dataLength topicPtr numTopics).returnCode
        = .ExecutionFailed ∧
    errMessage .errNegativeLength = "negative length" ∧
    "negative length" ∈ (writeLog gs s dataPointer dataLength topicPtr numTopics).runtimeErrors ∧
    (writeLog gs s dataPointer dataLength topicPtr numTopics).logs = s.logs := by
  unfold writeLog
  rw [if_pos h]
  simp [withFault, failExecution, chargeGas, errMessage]

/-- Witness for C8 at a concrete negative data length. -/
theorem writeLog_negative_length_witness :
    (writeLog ⟨0, 0, 0, 0, 0, 0, 0, 0⟩ ⟨[], 0, [], false, [], .Ok, [], []⟩
        0 (-1) 0 0).returnCode = .ExecutionFailed ∧
    errMessage .errNegativeLength = "negative length" ∧
    "negative length" ∈ (writeLog ⟨0, 0, 0, 0, 0, 0, 0, 0⟩
        ⟨[], 0, [], false, [], .Ok, [], []⟩ 0 (-1) 0 0).runtimeErrors ∧
    (writeLog ⟨0, 0, 0, 0, 0, 0, 0, 0⟩ ⟨[], 0, [], false, [], .Ok, [], []⟩
        0 (-1) 0 0).logs = [] :=
  writeLog_negative_length ⟨0, 0, 0, 0, 0, 0, 0, 0⟩
    ⟨[], 0, [], false, [], .Ok, [], []⟩ 0 (-1) 0 0 (Or.inr (by decide))

/-- C6 (counterexample): the int32-returning hooks do not follow the
"-1 on failure, 1 on success" convention.  `GetBlockHash` on an empty
memory (a failing memory store) returns 1, not -1, and on an adequate
memory (success) returns 0, not 1. -/
theorem int32_hook_convention_counterexample :
    (getBlockHash ⟨0, 0, 0, 0, 0, 0, 0, 0⟩ (fun _ => List.replicate 32 7)
        ⟨[], 0, [], false, [], .Ok, [], []⟩ 0 0).1 = 1 ∧
    (getBlockHash ⟨0, 0, 0, 0, 0, 0, 0, 0⟩ (fun _ => List.replicate 32 7)
        ⟨[], 0, [], false, [], .Ok, [], []⟩ 0 0).1 ≠ -1 ∧
    (getBlockHash ⟨0, 0, 0, 0, 0, 0, 0, 0⟩ (fun _ => List.replicate 32 7)
        ⟨List.replicate 32 0, 0, [], false, [], .Ok, [], []⟩ 0 0).1 = 0 ∧
    (getBlockHash ⟨0, 0, 0, 0, 0, 0, 0, 0⟩ (fun _ => List.replicate 32 7)
        ⟨List.replicate 32 0, 0, [], false, [], .Ok, [], []⟩ 0 0).1 ≠ 1 := by
  refine ⟨?_, ?_, ?_, ?_⟩ <;> simp [getBlockHash, memStore, chargeGas, withFault,
    failExecution, uint64Of]

/-- C6 (amended): each int32 hook has its own return convention.
`GetBlockHash` and `CreateAsyncCall` return 1 on a recoverable failure and
0 on success, while `StorageLoad` returns -1 on failure and the loaded data
length on success. -/
theorem int32_hook_return_values (gs : GasSchedule) (blockHashOf : Nat → Bytes)
    (s : EIState) (nonce resultOffset : Int)
    (successFunc errorFunc : Bytes) (registerErr : VMErr)
    (keyOffset keyLength dataOffset : Int) :
    (∀ e, memStore s.mem resultOffset (blockHashOf (uint64Of nonce)) = .error e →
      (getBlockHash gs blockHashOf s nonce resultOffset).1 = 1) ∧
    (∀ m2, memStore s.mem resultOffset (blockHashOf (uint64Of nonce)) = .ok m2 →
      (getBlockHash gs blockHashOf s nonce resultOffset).1 = 0) ∧
    (createAsyncCallWithTypedArgs gs s successFunc errorFunc (some registerErr)).1 = 1 ∧
    (createAsyncCallWithTypedArgs gs s successFunc errorFunc none).1 = 0 ∧
    (∀ e, memLoad s.mem keyOffset keyLength = .error e →
      (storageLoadWithHost gs s keyOffset keyLength dataOffset).1 = -1) ∧
    (∀ key m2, memLoad s.mem keyOffset keyLength = .ok key →
      memStore s.mem dataOffset (lookupStorage s.sto key) = .ok m2 →
      (storageLoadWithHost gs s keyOffset keyLength dataOffset).1
        = (lookupStorage s.sto key).length) := by
  refine ⟨fun e he => ?_, fun m2 hm => ?_, ?_, ?_, fun e he => ?_, fun key m2 hk hm => ?_⟩
  · simp [getBlockHash, chargeGas] at he ⊢
    rw [he]
  · simp [getBlockHash, chargeGas] at hm ⊢
    rw [hm]
  · simp [createAsyncCallWithTypedArgs]
  · simp [createAsyncCallWithTypedArgs]
  · simp [storageLoadWithHost] at he ⊢
    rw [he]
  · simp [storageLoadWithHost, chargeGas] at hk hm ⊢
    rw [hk]
    simp [chargeGas, hm]

/-- Witness for C6 (amended) at concrete failing and succeeding inputs. -/
theorem int32_hook_return_values_witness :
    (getBlockHash ⟨0, 0, 0, 0, 0, 0, 0, 0⟩ (fun _ => List.replicate 32 7)
        ⟨[], 0, [], false, [], .Ok, [], []⟩ 0 0).1 = 1 ∧
    (storageLoadWithHost ⟨0, 0, 0, 0, 0, 0, 0, 0⟩
        ⟨[], 0, [], false, [], .Ok, [], []⟩ 0 1 0).1 = -1 :=
  ⟨(int32_hook_return_values ⟨0, 0, 0, 0, 0, 0, 0, 0⟩ (fun _ => List.replicate 32 7)
      ⟨[], 0, [], false, [], .Ok, [], []⟩ 0 0 [] [] .errBadBounds 0 1 0).1
      .errBadBounds (by simp [memStore]),
   (int32_hook_return_values ⟨0, 0, 0, 0, 0, 0, 0, 0⟩ (fun _ => List.replicate 32 7)
      ⟨[], 0, [], false, [], .Ok, [], []⟩ 0 0 [] [] .errBadBounds 0 1 0).2.2.2.2.1
      .errBadBounds (by simp [memLoad])⟩

/-- Helper: the empty output frame carries a zero balance-delta sum. -/
theorem sumBalanceDeltas_empty : sumBalanceDeltas emptyOutputFrame = 0 := rfl

/-- Helper: `AddTxValueToAccount` raises the balance-delta sum by the
credited value. -/
theorem sumBalanceDeltas_addTxValue (addr : Bytes) (v : Int) (f : OutputFrame) :
    sumBalanceDeltas (addTxValueToAccount addr v f) = sumBalanceDeltas f + v := by
  simp [sumBalanceDeltas, addTxValueToAccount]

/-- Helper: merging frames adds their balance-delta sums. -/
theorem sumBalanceDeltas_merge (p c : OutputFrame) :
    sumBalanceDeltas (mergeOutputFrames p c)
      = sumBalanceDeltas p + sumBalanceDeltas c := by
  simp [sumBalanceDeltas, mergeOutputFrames]

/-- Helper: a successful `TransferValueOnly` moves value between accounts
and preserves the balance-delta sum. -/
theorem transferValueOnly_sum (ro : Bool) (bo : Bytes → Int)
    (dest sender : Bytes) (v : Int) (f f2 : OutputFrame)
    (h : transferValueOnly ro bo dest sender v f = .ok f2) :
    sumBalanceDeltas f2 = sumBalanceDeltas f := by
  unfold transferValueOnly at h
  split at h
  · simp at h
  · split at h
    · simp at h
    · split at h
      · simp at h
      · rw [Except.ok.injEq] at h
        subst h
        simp [sumBalanceDeltas]

/-- Helper: a successful `Transfer` preserves the balance-delta sum. -/
theorem outputTransfer_sum (ro : Bool) (bo : Bytes → Int)
    (dest sender : Bytes) (gl gk : Nat) (v : Int) (ad d : Bytes)
    (ct : CallType) (f f2 : OutputFrame)
    (h : outputTransfer ro bo dest sender gl gk v ad d ct f = .ok f2) :
    sumBalanceDeltas f2 = sumBalanceDeltas f := by
  unfold outputTransfer at h
  cases hv : transferValueOnly ro bo dest sender v f with
  | error e =>
    simp only [hv] at h
    simp at h
  | ok fmid =>
    simp only [hv] at h
    rw [Except.ok.injEq] at h
    subst h
    have := transferValueOnly_sum ro bo dest sender v f fmid hv
    simpa [sumBalanceDeltas] using this

mutual

/-- Helper: every successful guest effect preserves the balance-delta sum
of the output frame. -/
theorem runOp_sum (bo : Bytes → Int) (ro : Bool) (selfAddr : Bytes)
    (op : GuestOp) (f f2 : OutputFrame)
    (h : runOp bo ro selfAddr op f = .ok f2) :
    sumBalanceDeltas f2 = sumBalanceDeltas f := by
  cases op with
  | finishData d =>
    rw [runOp, Except.ok.injEq] at h
    subst h
    simp [sumBalanceDeltas]
  | logOp topics d =>
    rw [runOp, Except.ok.injEq] at h
    subst h
    simp [sumBalanceDeltas]
  | storageStoreOp key value =>
    rw [runOp] at h
    split at h
    · exact absurd h (by simp)
    · rw [Except.ok.injEq] at h
      subst h
      simp [sumBalanceDeltas]
  | transferExecuteOp dest value gasLimit d =>
    rw [runOp] at h
    exact outputTransfer_sum ro bo dest selfAddr gasLimit 0 value [] d .DirectCall f f2 h
  | execOnDestOp dest value ops =>
    rw [runOp] at h
    cases h1 : transferValueOnly ro bo dest selfAddr value emptyOutputFrame with
    | error e =>
      simp only [h1] at h
      simp at h
    | ok c1 =>
      simp only [h1] at h
      cases h2 : runOps bo ro dest ops c1 with
      | error e =>
        simp only [h2] at h
        simp at h
      | ok c2 =>
        simp only [h2] at h
        rw [Except.ok.injEq] at h
        subst h
        have hc1 := transferValueOnly_sum ro bo dest selfAddr value emptyOutputFrame c1 h1
        have hc2 := runOps_sum bo ro dest ops c1 c2 h2
        rw [sumBalanceDeltas_merge, hc2, hc1, sumBalanceDeltas_empty, add_zero]

/-- Helper: a successful sequence of guest effects preserves the
balance-delta sum of the output frame. -/
theorem runOps_sum (bo : Bytes → Int) (ro : Bool) (selfAddr : Bytes)
    (ops : List GuestOp) (f f2 : OutputFrame)
    (h : runOps bo ro selfAddr ops f = .ok f2) :
    sumBalanceDeltas f2 = sumBalanceDeltas f := by
  cases ops with
  | nil =>
    rw [runOps, Except.ok.injEq] at h
    subst h
    rfl
  | cons op rest =>
    rw [runOps] at h
    cases h1 : runOp bo ro selfAddr op f with
    | error e =>
      simp only [h1] at h
      simp at h
    | ok fmid =>
      simp only [h1] at h
      have ha := runOp_sum bo ro selfAddr op f fmid h1
      have hb := runOps_sum bo ro selfAddr rest fmid f2 h
      rw [hb, ha]

end

/-- C2 (counterexample): a successful top-level call that transfers a
positive call value produces a VMOutput whose output-account balance deltas
sum to the call value, not to zero: the engine credits the recipient through
`AddTxValueToAccount` while the sender's debit is applied by the protocol
outside the VM. -/
theorem conservation_counterexample :
    (doRunSmartContractCallOutput (fun _ => 1000) ⟨[1], [2], 5, 100⟩ [] 0).returnCode
        = .Ok ∧
    sumVMOutputDeltas (doRunSmartContractCallOutput (fun _ => 1000) ⟨[1], [2], 5, 100⟩ [] 0)
        = 5 ∧
    sumVMOutputDeltas (doRunSmartContractCallOutput (fun _ => 1000) ⟨[1], [2], 5, 100⟩ [] 0)
        ≠ 0 := by
  refine ⟨?_, ?_, ?_⟩ <;>
    simp [doRunSmartContractCallOutput, runOps, addTxValueToAccount,
      emptyOutputFrame, getVMOutput, sumVMOutputDeltas]

/-- C2 (amended): in every execution that completes successfully, the sum of
balanceDelta over all output accounts of the resulting VMOutput equals the
call value of the top-level input (zero exactly for value-free calls); all
value transfers performed during execution, including nested synchronous
calls, preserve this sum. -/
theorem successful_run_sum_eq_callValue (bo : Bytes → Int)
    (input : CallInputLite) (ops : List GuestOp) (gasRemaining : Nat)
    (hok : (doRunSmartContractCallOutput bo input ops gasRemaining).returnCode = .Ok) :
    sumVMOutputDeltas (doRunSmartContractCallOutput bo input ops gasRemaining)
      = input.callValue := by
  simp only [doRunSmartContractCallOutput] at hok ⊢
  cases hrun : runOps bo false input.recipientAddr ops
      (addTxValueToAccount input.recipientAddr input.callValue emptyOutputFrame) with
  | error e =>
    simp only [hrun] at hok
    exact absurd hok (by simp [createVMOutputInCaseOfError, returnCodeOfError_ne_Ok e])
  | ok f2 =>
    simp only [hrun]
    have hs := runOps_sum bo false input.recipientAddr ops _ f2 hrun
    have hget : sumVMOutputDeltas (getVMOutput f2 gasRemaining) = sumBalanceDeltas f2 := rfl
    rw [hget, hs, sumBalanceDeltas_addTxValue, sumBalanceDeltas_empty, zero_add]

/-- Witness for C2 (amended) at a concrete successful execution. -/
theorem successful_run_sum_eq_callValue_witness :
    sumVMOutputDeltas (doRunSmartContractCallOutput (fun _ => 50) ⟨[3], [4], 7, 10⟩ [] 2)
      = 7 :=
  successful_run_sum_eq_callValue (fun _ => 50) ⟨[3], [4], 7, 10⟩ [] 2
    (by simp [doRunSmartContractCallOutput, runOps, getVMOutput,
      addTxValueToAccount, emptyOutputFrame])

/-- An output frame with no storage updates and no value-bearing transfers,
as a read-only execution must produce. -/
def readOnlyCompliant (f : OutputFrame) : Prop :=
  f.storageUpdatesList = [] ∧ ∀ t ∈ f.transfersList, t.2.value = 0

/-- Helper: a `TransferValueOnly` that succeeds in read-only mode moved no
value and touched neither storage updates nor transfers. -/
theorem transferValueOnly_readOnly (bo : Bytes → Int) (dest sender : Bytes)
    (v : Int) (f f2 : OutputFrame)
    (h : transferValueOnly true bo dest sender v f = .ok f2) :
    v = 0 ∧ f2.storageUpdatesList = f.storageUpdatesList ∧
      f2.transfersList = f.transfersList := by
  unfold transferValueOnly at h
  split at h
  · simp at h
  · rename_i hneg
    split at h
    · simp at h
    · rename_i hro
      split at h
      · simp at h
      · rw [Except.ok.injEq] at h
        subst h
        have hle : ¬ 0 < v := by simpa using hro
        exact ⟨by omega, rfl, rfl⟩

/-- Helper: a `Transfer` that succeeds in read-only mode records only a
zero-value transfer and no storage update. -/
theorem outputTransfer_readOnly (bo : Bytes → Int) (dest sender : Bytes)
    (gl gk : Nat) (v : Int) (ad d : Bytes) (ct : CallType)
    (f f2 : OutputFrame)
    (h : outputTransfer true bo dest sender gl gk v ad d ct f = .ok f2) :
    f2.storageUpdatesList = f.storageUpdatesList ∧
    ∀ t ∈ f2.transfersList, t ∈ f.transfersList ∨ t.2.value = 0 := by
  unfold outputTransfer at h
  cases hv : transferValueOnly true bo dest sender v f with
  | error e =>
    simp only [hv] at h
    simp at h
  | ok fmid =>
    simp only [hv] at h
    rw [Except.ok.injEq] at h
    subst h
    obtain ⟨hv0, hsu, htr⟩ := transferValueOnly_readOnly bo dest sender v f fmid hv
    refine ⟨by simpa using hsu, fun t ht => ?_⟩
    simp only [List.mem_append, List.mem_singleton] at ht
    rcases ht with ht | ht
    · exact Or.inl (htr ▸ ht)
    · subst ht
      exact Or.inr (by simpa using hv0)

mutual

/-- Helper: in read-only mode, every successful guest effect preserves the
absence of storage updates and value-bearing transfers. -/
theorem runOp_readOnly (bo : Bytes → Int) (selfAddr : Bytes) (op : GuestOp)
    (f f2 : OutputFrame) (hf : readOnlyCompliant f)
    (h : runOp bo true selfAddr op f = .ok f2) : readOnlyCompliant f2 := by
  cases op with
  | finishData d =>
    rw [runOp, Except.ok.injEq] at h
    subst h
    exact hf
  | logOp topics d =>
    rw [runOp, Except.ok.injEq] at h
    subst h
    exact hf
  | storageStoreOp key value =>
    rw [runOp] at h
    simp at h
  | transferExecuteOp dest value gasLimit d =>
    rw [runOp] at h
    obtain ⟨hsu, htr⟩ :=
      outputTransfer_readOnly bo dest selfAddr gasLimit 0 value [] d .DirectCall f f2 h
    refine ⟨hsu.trans hf.1, fun t ht => ?_⟩
    rcases htr t ht with hmem | h0
    · exact hf.2 t hmem
    · exact h0
  | execOnDestOp dest value ops =>
    rw [runOp] at h
    cases h1 : transferValueOnly true bo dest selfAddr value emptyOutputFrame with
    | error e =>
      simp only [h1] at h
      simp at h
    | ok c1 =>
      simp only [h1] at h
      cases h2 : runOps bo true dest ops c1 with
      | error e =>
        simp only [h2] at h
        simp at h
      | ok c2 =>
        simp only [h2] at h
        rw [Except.ok.injEq] at h
        subst h
        obtain ⟨_, hsu1, htr1⟩ :=
          transferValueOnly_readOnly bo dest selfAddr value emptyOutputFrame c1 h1
        have hc1 : readOnlyCompliant c1 := by
          constructor
          · simpa [emptyOutputFrame] using hsu1
          · intro t ht
            rw [htr1] at ht
            simp [emptyOutputFrame] at ht
        have hc2 := runOps_readOnly bo dest ops c1 c2 hc1 h2
        constructor
        · simp [mergeOutputFrames, hf.1, hc2.1]
        · intro t ht
          simp only [mergeOutputFrames, List.mem_append] at ht
          rcases ht with ht | ht
          · exact hf.2 t ht
          · exact hc2.2 t ht

/-- Helper: in read-only mode, a successful sequence of guest effects
preserves the absence of storage updates and value-bearing transfers. -/
theorem runOps_readOnly (bo : Bytes → Int) (selfAddr : Bytes)
    (ops : List GuestOp) (f f2 : OutputFrame) (hf : readOnlyCompliant f)
    (h : runOps bo true selfAddr ops f = .ok f2) : readOnlyCompliant f2 := by
  cases ops with
  | nil =>
    rw [runOps, Except.ok.injEq] at h
    subst h
    exact hf
  | cons op rest =>
    rw [runOps] at h
    cases h1 : runOp bo true selfAddr op f with
    | error e =>
      simp only [h1] at h
      simp at h
    | ok fmid =>
      simp only [h1] at h
      exact runOps_readOnly bo selfAddr rest fmid f2
        (runOp_readOnly bo selfAddr op f fmid hf h1) h

end

/-- C3: whenever the runtime read-only flag is set, an ESDT transfer, a
builtin-function call, a contract creation, a storage write and a
value-bearing outbound transfer all fail with
`ErrInvalidCallOnReadOnlyMode`; consequently the final VMOutput of a
read-only call contains no storage updates and no transfer with non-zero
value, whether the nested execution succeeds or fails. -/
theorem readOnly_execution_properties (transfers : List ESDTTransfer)
    (pb : Except VMErr VMOutput) (deploymentRest : Except VMErr Bytes)
    (bo : Bytes → Int) (selfAddr dest : Bytes) (key value : Bytes)
    (v : Int) (f : OutputFrame) (ops : List GuestOp) (gasRemaining : Nat)
    (htr : transfers ≠ []) (hv : 0 < v) :
    executeESDTTransfer true transfers pb = .error .errInvalidCallOnReadOnlyMode ∧
    callBuiltinFunction true pb = .error .errInvalidCallOnReadOnlyMode ∧
    createNewContract true none deploymentRest = .error .errInvalidCallOnReadOnlyMode ∧
    runOp bo true selfAddr (.storageStoreOp key value) f
      = .error .errInvalidCallOnReadOnlyMode ∧
    transferValueOnly true bo dest selfAddr v f
      = .error .errInvalidCallOnReadOnlyMode ∧
    (executeReadOnlyOutput bo selfAddr dest ops gasRemaining).storageUpdatesList = [] ∧
    ∀ t ∈ (executeReadOnlyOutput bo selfAddr dest ops gasRemaining).transfersList,
      t.2.value = 0 := by
  refine ⟨?_, ?_, ?_, ?_, ?_, ?_⟩
  · simp [executeESDTTransfer, htr]
  · simp [callBuiltinFunction]
  · simp [createNewContract]
  · simp [runOp]
  · unfold transferValueOnly
    rw [if_neg (by omega), if_pos ⟨hv, rfl⟩]
  · unfold executeReadOnlyOutput
    cases h1 : transferValueOnly true bo dest selfAddr 0 emptyOutputFrame with
    | error e =>
      simp only [h1]
      simp [createVMOutputInCaseOfError]
    | ok c1 =>
      simp only [h1]
      obtain ⟨_, hsu1, htr1⟩ :=
        transferValueOnly_readOnly bo dest selfAddr 0 emptyOutputFrame c1 h1
      have hc1 : readOnlyCompliant c1 := by
        constructor
        · simpa [emptyOutputFrame] using hsu1
        · intro t ht
          rw [htr1] at ht
          simp [emptyOutputFrame] at ht
      cases h2 : runOps bo true dest ops c1 with
      | error e =>
        simp only [h2]
        simp [createVMOutputInCaseOfError]
      | ok c2 =>
        simp only [h2]
        have hc2 := runOps_readOnly bo dest ops c1 c2 hc1 h2
        exact ⟨hc2.1, fun t ht => hc2.2 t ht⟩

/-- Witness for C3 at concrete read-only inputs. -/
theorem readOnly_execution_properties_witness :
    executeESDTTransfer true [⟨[9], 0, 3⟩] (.error .errExecutionFailed)
      = .error .errInvalidCallOnReadOnlyMode ∧
    transferValueOnly true (fun _ => 0) [5] [6] 1 emptyOutputFrame
      = .error .errInvalidCallOnReadOnlyMode :=
  ⟨(readOnly_execution_properties [⟨[9], 0, 3⟩] (.error .errExecutionFailed)
      (.error .errExecutionFailed) (fun _ => 0) [6] [5] [] [] 1
      emptyOutputFrame [] 0 (by decide) (by decide)).1,
   (readOnly_execution_properties [⟨[9], 0, 3⟩] (.error .errExecutionFailed)
      (.error .errExecutionFailed) (fun _ => 0) [6] [5] [] [] 1
      emptyOutputFrame [] 0 (by decide) (by decide)).2.2.2.2.1⟩

/-- C4: an upgrade — direct (`doRunSmartContractUpgrade`) or indirect
(`executeUpgrade`) — of an existing target account is rejected with
`ErrUpgradeNotAllowed` unless the account's code metadata has the
upgradeable bit set and the caller equals the account's owner; a rejected
upgrade deploys no code.  When both conditions hold, the permission check
passes. -/
theorem upgrade_permission_enforced
    (getUserAccount : Bytes → Except VMErr (Option UserAccount))
    (callerAddr recipientAddr : Bytes) (contract : UserAccount)
    (callValue : Int) (args : List Bytes)
    (deductOutcome startOutcome initOutcome : Option VMErr)
    (gasRemaining : Nat) (f : OutputFrame)
    (hacc : getUserAccount recipientAddr = .ok (some contract)) :
    (¬((codeMetadataFromBytes contract.codeMetadataBytes).upgradeable = true ∧
        callerAddr = contract.ownerAddress) →
      checkUpgradePermission getUserAccount callerAddr recipientAddr
          = some .errUpgradeNotAllowed ∧
      doRunSmartContractUpgrade getUserAccount callerAddr recipientAddr callValue
          args deductOutcome startOutcome initOutcome gasRemaining
        = createVMOutputInCaseOfError .errUpgradeNotAllowed ∧
      (doRunSmartContractUpgrade getUserAccount callerAddr recipientAddr callValue
          args deductOutcome startOutcome initOutcome gasRemaining).deployedCodes
        = [] ∧
      executeUpgrade getUserAccount callerAddr recipientAddr args
          deductOutcome startOutcome initOutcome f
        = .error .errUpgradeNotAllowed) ∧
    (((codeMetadataFromBytes contract.codeMetadataBytes).upgradeable = true ∧
        callerAddr = contract.ownerAddress) →
      checkUpgradePermission getUserAccount callerAddr recipientAddr = none) := by
  constructor
  · intro hrej
    have hperm : checkUpgradePermission getUserAccount callerAddr recipientAddr
        = some .errUpgradeNotAllowed := by
      simp only [checkUpgradePermission, hacc]
      rw [if_neg hrej]
    refine ⟨hperm, ?_, ?_, ?_⟩
    · simp only [doRunSmartContractUpgrade, hperm]
    · simp only [doRunSmartContractUpgrade, hperm]
      simp [createVMOutputInCaseOfError]
    · simp only [executeUpgrade, hperm]
  · intro hok
    simp only [checkUpgradePermission, hacc]
    rw [if_pos hok]

/-- Witness for C4 at a concrete non-upgradeable account. -/
theorem upgrade_permission_enforced_witness :
    checkUpgradePermission
        (fun a => if a = [2] then .ok (some ⟨[7], [0, 0]⟩) else .ok none)
        [1] [2]
      = some .errUpgradeNotAllowed :=
  ((upgrade_permission_enforced
      (fun a => if a = [2] then .ok (some ⟨[7], [0, 0]⟩) else .ok none)
      [1] [2] ⟨[7], [0, 0]⟩ 0 [] none none none 0 emptyOutputFrame
      (by simp)).1 (by decide)).1

/-- Helper: a zero-value `Transfer` always succeeds and records the transfer
on the destination with both balance-delta postings at zero. -/
theorem outputTransfer_zero (ro : Bool) (bo : Bytes → Int)
    (dest sender : Bytes) (gl gk : Nat) (ad d : Bytes) (ct : CallType)
    (f : OutputFrame) :
    outputTransfer ro bo dest sender gl gk 0 ad d ct f
      = .ok { f with
          deltaPostings := f.deltaPostings ++ [(sender, 0), (dest, 0)],
          transfersList := f.transfersList ++ [(dest, ⟨0, gl, gk, ad, d, ct, sender⟩)] } := by
  simp [outputTransfer, transferValueOnly]

/-- Helper: folding `addBytes` over a list appends the list to the builder's
element sequence. -/
theorem foldl_addBytes (rd : List Bytes) (b : TxDataBuilder) :
    rd.foldl TxDataBuilder.addBytes b = ⟨b.callFunction, b.elements ++ rd⟩ := by
  induction rd generalizing b with
  | nil => simp
  | cons x xs ih =>
    rw [List.foldl_cons, ih]
    simp [TxDataBuilder.addBytes]

/-- C7: `SendCrossShardCallback` emits a transfer tagged
`AsynchronousCallBack` from the async context's address back to its caller;
the async-data prefix is the builder encoding of exactly the 4-tuple
(newCallID, currentCallID, callerCallID, gasAccumulated), and the transfer
data is the builder encoding of the placeholder function followed by the
return code and then the return data when the return code is Ok, or the
return message otherwise. -/
theorem sendCrossShardCallback_encoding (ro : Bool) (bo : Bytes → Int)
    (ctx : AsyncCtxLite) (rc : ReturnCode) (rd : List Bytes) (rm : String)
    (gasLeft : Nat) (f : OutputFrame) :
    ∃ f2 ctx2,
      sendCrossShardCallback ro bo ctx rc rd rm gasLeft f = .ok (f2, ctx2) ∧
      f2.transfersList = f.transfersList ++
        [(ctx.callerAddr,
          ⟨0, gasLeft, 0,
            TxDataBuilder.toBytes ⟨[], [(generateNewCallID ctx).1, ctx.callID,
              ctx.callerCallID, natToBytesBE ctx.gasAccumulated]⟩,
            TxDataBuilder.toBytes ⟨strToBytes callbackNamePlaceholder,
              returnCodeToBytes rc :: (if rc = .Ok then rd else [strToBytes rm])⟩,
            .AsynchronousCallBack, ctx.address⟩)] := by
  have hasync :
      (createDataForCrossShardCallback ctx rc rd rm).1
        = TxDataBuilder.toBytes ⟨[], [(generateNewCallID ctx).1, ctx.callID,
            ctx.callerCallID, natToBytesBE ctx.gasAccumulated]⟩ := by
    simp [createDataForCrossShardCallback, TxDataBuilder.newBuilder,
      TxDataBuilder.addBytes]
  have hdata :
      (createDataForCrossShardCallback ctx rc rd rm).2.1
        = TxDataBuilder.toBytes ⟨strToBytes callbackNamePlaceholder,
            returnCodeToBytes rc :: (if rc = .Ok then rd else [strToBytes rm])⟩ := by
    by_cases hrc : rc = .Ok
    · simp [createDataForCrossShardCallback, hrc, foldl_addBytes,
        TxDataBuilder.newBuilder, TxDataBuilder.addBytes, TxDataBuilder.setFunc]
    · simp [createDataForCrossShardCallback, hrc, TxDataBuilder.newBuilder,
        TxDataBuilder.addBytes, TxDataBuilder.addStr, TxDataBuilder.setFunc]
  refine ⟨{ f with
      deltaPostings := f.deltaPostings ++ [(ctx.address, 0), (ctx.callerAddr, 0)],
      transfersList := f.transfersList ++
        [(ctx.callerAddr,
          ⟨0, gasLeft, 0, (createDataForCrossShardCallback ctx rc rd rm).1,
            (createDataForCrossShardCallback ctx rc rd rm).2.1,
            .AsynchronousCallBack, ctx.address⟩)] },
    (createDataForCrossShardCallback ctx rc rd rm).2.2, ?_, ?_⟩
  · unfold sendCrossShardCallback
    simp only [outputTransfer_zero]
  · rw [← hasync, ← hdata]

/-- Helper: popping with a known stack reinstates the saved state. -/
theorem popSet_of_stack {α : Type} (c : CtxStack α) (x : α) (rest : List α)
    (h : c.stack = x :: rest) : popSetActiveState c = ⟨x, rest⟩ := by
  unfold popSetActiveState
  rw [h]

/-- Helper: pop-merging with a known stack merges the active state into the
saved one. -/
theorem popMerge_of_stack {α : Type} (merge : α → α → α) (c : CtxStack α)
    (x : α) (rest : List α) (h : c.stack = x :: rest) :
    popMergeActiveState merge c = ⟨merge x c.current, rest⟩ := by
  unfold popMergeActiveState
  rw [h]

/-- Helper: pop-discarding with a known stack keeps the active state. -/
theorem popDiscard_of_stack {α : Type} (c : CtxStack α) (x : α)
    (rest : List α) (h : c.stack = x :: rest) :
    popDiscard c = ⟨c.current, rest⟩ := by
  unfold popDiscard
  rw [h]

/-- Helper: restoring zero gas changes nothing. -/
theorem restoreGasFrame_zero (fr : MeteringFrame) : restoreGasFrame 0 fr = fr := by
  simp [restoreGasFrame]

/-- C1: for a nested synchronous call, `finishExecuteOnDestContext` and
`finishExecuteOnSameContext` restore the parent's saved Output and Metering
states exactly when the child failed (an error was returned or the child's
return code is not Ok), discarding the child frame; when the child
succeeded they merge the child's output and gas accounting additively into
the parent's frame (for `ExecuteOnSameContext` the child accumulated into
the shared output frame, which is kept while the saved copy is dropped),
restoring the child's unspent gas to the caller. -/
theorem nested_call_frame_discipline (executeErr : Option VMErr)
    (sd : DestFinishState) (ss : SameFinishState)
    (po : OutputFrame) (pm : MeteringFrame)
    (restO : List OutputFrame) (restM : List MeteringFrame)
    (qo : OutputFrame) (qm : MeteringFrame)
    (restO2 : List OutputFrame) (restM2 : List MeteringFrame)
    (hdo : sd.outputCtx.stack = po :: restO)
    (hdm : sd.meteringCtx.stack = pm :: restM)
    (hso : ss.outputCtx.stack = qo :: restO2)
    (hsm : ss.meteringCtx.stack = qm :: restM2) :
    (executeErr.isSome = true →
      (finishExecuteOnDestContext executeErr sd).2.outputCtx = ⟨po, restO⟩ ∧
      (finishExecuteOnDestContext executeErr sd).2.meteringCtx = ⟨pm, restM⟩) ∧
    (executeErr = none → sd.outputCtx.current.returnCode = .Ok →
      (sd.asyncIsComplete = true ∨ sd.asyncSaveOutcome = none) →
      (finishExecuteOnDestContext executeErr sd).2.outputCtx
          = ⟨mergeOutputFrames po sd.outputCtx.current, restO⟩ ∧
      (finishExecuteOnDestContext executeErr sd).2.meteringCtx
          = ⟨if (!sd.childIsAsyncCall ∨ sd.asyncIsComplete)
              then restoreGasFrame sd.meteringCtx.current.gasLeft
                    (mergeMeteringFrames pm sd.meteringCtx.current)
              else mergeMeteringFrames pm sd.meteringCtx.current, restM⟩) ∧
    ((ss.outputCtx.current.returnCode ≠ .Ok ∨ executeErr.isSome = true) →
      finishExecuteOnSameContext executeErr ss = ⟨⟨qo, restO2⟩, ⟨qm, restM2⟩⟩) ∧
    (ss.outputCtx.current.returnCode = .Ok → executeErr = none →
      finishExecuteOnSameContext executeErr ss
        = ⟨⟨ss.outputCtx.current, restO2⟩,
           ⟨restoreGasFrame ss.meteringCtx.current.gasLeft
              (mergeMeteringFrames qm ss.meteringCtx.current), restM2⟩⟩) := by
  refine ⟨?_, ?_, ?_, ?_⟩
  · intro hsome
    obtain ⟨e, he⟩ := Option.isSome_iff_exists.mp hsome
    subst he
    cases hA : sd.asyncIsComplete with
    | true =>
      simp [finishExecuteOnDestContext, hA, createVMOutputInCaseOfError,
        returnCodeOfError_ne_Ok e, popSet_of_stack sd.outputCtx po restO hdo,
        popSet_of_stack sd.meteringCtx pm restM hdm, restoreGasFrame_zero]
    | false =>
      cases hS : sd.asyncSaveOutcome with
      | none =>
        simp [finishExecuteOnDestContext, hA, hS, createVMOutputInCaseOfError,
          returnCodeOfError_ne_Ok e, popSet_of_stack sd.outputCtx po restO hdo,
          popSet_of_stack sd.meteringCtx pm restM hdm, restoreGasFrame_zero]
      | some se =>
        simp [finishExecuteOnDestContext, hA, hS, createVMOutputInCaseOfError,
          returnCodeOfError_ne_Ok e, returnCodeOfError_ne_Ok se,
          popSet_of_stack sd.outputCtx po restO hdo,
          popSet_of_stack sd.meteringCtx pm restM hdm, restoreGasFrame_zero]
  · intro hnone hok hsave
    subst hnone
    cases hA : sd.asyncIsComplete with
    | true =>
      simp [finishExecuteOnDestContext, hA, getVMOutput, hok,
        popMerge_of_stack mergeOutputFrames sd.outputCtx po restO hdo,
        popMerge_of_stack mergeMeteringFrames sd.meteringCtx pm restM hdm]
    | false =>
      have hS : sd.asyncSaveOutcome = none := by
        rcases hsave with h | h
        · rw [hA] at h
          exact absurd h (by simp)
        · exact h
      simp [finishExecuteOnDestContext, hA, hS, getVMOutput, hok,
        popMerge_of_stack mergeOutputFrames sd.outputCtx po restO hdo,
        popMerge_of_stack mergeMeteringFrames sd.meteringCtx pm restM hdm]
      split <;> rfl
  · intro hcond
    unfold finishExecuteOnSameContext
    rw [if_pos hcond]
    rw [popSet_of_stack ss.outputCtx qo restO2 hso,
      popSet_of_stack ss.meteringCtx qm restM2 hsm]
  · intro hok hnone
    subst hnone
    unfold finishExecuteOnSameContext
    rw [if_neg (by simp [hok])]
    rw [popDiscard_of_stack ss.outputCtx qo restO2 hso,
      popMerge_of_stack mergeMeteringFrames ss.meteringCtx qm restM2 hsm]
    simp [getVMOutput]

/-- Witness for C1: a failing nested call at a concrete state restores the
parent's Output and Metering frames from the stacks. -/
theorem nested_call_frame_discipline_witness :
    (finishExecuteOnDestContext (some .errExecutionFailed)
        ⟨⟨emptyOutputFrame, [emptyOutputFrame]⟩, ⟨⟨0, 5⟩, [⟨1, 2⟩]⟩,
          false, true, none⟩).2.outputCtx = ⟨emptyOutputFrame, []⟩ ∧
    (finishExecuteOnDestContext (some .errExecutionFailed)
        ⟨⟨emptyOutputFrame, [emptyOutputFrame]⟩, ⟨⟨0, 5⟩, [⟨1, 2⟩]⟩,
          false, true, none⟩).2.meteringCtx = ⟨⟨1, 2⟩, []⟩ :=
  (nested_call_frame_discipline (some .errExecutionFailed)
    ⟨⟨emptyOutputFrame, [emptyOutputFrame]⟩, ⟨⟨0, 5⟩, [⟨1, 2⟩]⟩, false, true, none⟩
    ⟨⟨emptyOutputFrame, [emptyOutputFrame]⟩, ⟨⟨0, 5⟩, [⟨1, 2⟩]⟩⟩
    emptyOutputFrame ⟨1, 2⟩ [] [] emptyOutputFrame ⟨1, 2⟩ [] []
    rfl rfl rfl rfl).1 rfl

end WasmVM
